import Mathlib

/-!
Shallow embedding of the `fetch` package (src/request.go): a fluent HTTP
request builder.  The repository file contains two concatenated variants of
the package; following the spec's design note, the later superset variant
(the one with the `JSON` body setter, `Read`/`ReadString`, and query
stripping in the constructor) is the one embedded here.

External collaborators (the HTTP transport, the rate limiter's token
bucket, `net/url` parsing, `encoding/json` marshalling) are modelled as
explicit inputs: the embedding passes their outcomes as arguments, exactly
at the points the Go code calls them.
-/

namespace Fetch

/-- A loosely-typed candidate value for a query or header pair.  The Go
code accepts `interface\x7b\x7d`; following the spec's closed set of accepted
value kinds, the embedding fixes text, integer, boolean and byte-sequence
candidates. -/
inductive Value where
  | str (s : String)
  | int (n : Int)
  | bool (b : Bool)
  | bytes (bs : List UInt8)
deriving DecidableEq, Repr

/-- Effective string conversion of one candidate, as in `injectPairs`
(src/request.go:528-534): a byte sequence becomes the raw string of its
bytes, anything else is formatted the way `fmt.Sprint` formats it
(decimal integers, `true`/`false` booleans, strings unchanged). -/
def valueStr : Value → String
  | .str s => s
  | .int n => toString n
  | .bool b => if b then "true" else "false"
  | .bytes bs => String.mk (bs.map (fun b => Char.ofNat b.toNat))

/-- One configuration entry contributing to query parameters or headers
(type `pair`, src/request.go:295-298). -/
structure Pair where
  key : String
  values : List Value
deriving DecidableEq, Repr

/-- The inner loop of `injectPairs` over one pair's candidate list:
`vStr` starts empty and is overwritten on every iteration, so the last
candidate's conversion is the effective value (and an empty candidate
list yields the empty string). -/
def lastStr (vs : List Value) : String :=
  vs.foldl (fun _ v => valueStr v) ""

/-- The omission test of `injectPairs` (src/request.go:536): a computed
value is dropped when it equals the empty string, "0" or "false". -/
def dropped (s : String) : Bool :=
  s == "" || s == "0" || s == "false"

/-- A `url.Values`-style multimap: keys in insertion order, each with its
ordered list of string values. -/
abbrev Values := List (String × List String)

/-- Lookup of a key's value list (the empty list when the key is absent,
as for a Go map read of a missing key). -/
def getVals : Values → String → List String
  | [], _ => []
  | e :: rest, k => if e.1 = k then e.2 else getVals rest k

/-- The map update `vals[p.key] = append(vals[p.key], vStr)`
(src/request.go:539): append to the key's existing value list, creating
the key when absent. -/
def addVal : Values → String → String → Values
  | [], k, v => [(k, [v])]
  | e :: rest, k, v =>
    if e.1 = k then (e.1, e.2 ++ [v]) :: rest else e :: addVal rest k v

/-- Embedding of `injectPairs` (src/request.go:525-542): for each pair,
the last candidate's string conversion is computed; values equal to "",
"0" or "false" are skipped entirely; anything else is appended under the
pair's key. -/
def injectPairs (vals : Values) (ps : List Pair) : Values :=
  ps.foldl (fun acc p =>
    let vStr := lastStr p.values
    if dropped vStr then acc else addVal acc p.key vStr) vals

/-- Character-level canonicalization step for header keys: uppercase the
first letter and each letter that follows a hyphen, lowercase the rest. -/
def canonicalize : Bool → List Char → List Char
  | _, [] => []
  | upper, c :: cs =>
    (if upper then c.toUpper else c.toLower) :: canonicalize (c = '-') cs

/-- Model of `http.CanonicalHeaderKey` (standard-library collaborator)
on valid header keys; the fallback for keys holding invalid bytes (which
returns the key unchanged) is not modelled, as no behavior of this
package depends on it. -/
def canonicalHeaderKey (s : String) : String :=
  String.mk (canonicalize true s.data)

/-- Embedding of `strings.SplitN(url, "?", 2)[0]` as used by `New`
(src/request.go:307): everything before the first question mark, or the
whole string when it has none. -/
def stripAfterQ : List Char → List Char
  | [] => []
  | c :: cs => if c = '?' then [] else c :: stripAfterQ cs

/-- String-level wrapper of `stripAfterQ`. -/
def stripQuery (s : String) : String :=
  String.mk (stripAfterQ s.data)

/-- The transport client reference: the shared default client or a
caller-supplied override (the pointer identity is modelled by a number). -/
inductive ClientRef where
  | defaultClient
  | custom (id : Nat)
deriving DecidableEq, Repr

/-- Model of `url.Userinfo`: a username/password credential pair. -/
structure Userinfo where
  username : String
  password : String
deriving DecidableEq, Repr

/-- Embedding of the `Request` builder value (src/request.go:282-293).
The context and the rate limiter are external collaborators identified by
a number. -/
structure Request where
  client : ClientRef
  ctx : Option Nat
  method : String
  url : String
  query : List Pair
  header : List Pair
  user : Option Userinfo
  limiter : Option Nat
  body : List UInt8
  bodyMime : String
deriving DecidableEq, Repr

/-- Embedding of `strings.HasPrefix` (standard-library collaborator): a
byte-prefix test, modelled at the character-list level. -/
def hasPfx (s pre : String) : Bool :=
  pre.data.isPrefixOf s.data

/-- Embedding of the constructor `New` (src/request.go:300-309): a URL
starting with `/` or `:` is prefixed with `http://localhost`, then
everything from the first `?` on is stripped; the client defaults to the
shared default client and every other field starts empty. -/
def New (method u : String) : Request :=
  let u := if hasPfx u "/" || hasPfx u ":" then "http://localhost" ++ u else u
  { client := .defaultClient, ctx := none, method := method, url := stripQuery u,
    query := [], header := [], user := none, limiter := none, body := [], bodyMime := "" }

/-- Embedding of `Request.Client` (src/request.go:316-319). -/
def Request.Client (t : Request) (c : Nat) : Request :=
  { t with client := .custom c }

/-- Embedding of `Request.Context` (src/request.go:321-324). -/
def Request.Context (t : Request) (c : Nat) : Request :=
  { t with ctx := some c }

/-- Embedding of `Request.Query` (src/request.go:326-329): append one
pair to the query pair list. -/
def Request.Query (t : Request) (key : String) (vs : List Value) : Request :=
  { t with query := t.query ++ [⟨key, vs⟩] }

/-- Embedding of `Request.Header` (src/request.go:331-334): append one
pair, with the key case-canonicalized, to the header pair list. -/
def Request.Header (t : Request) (key : String) (vs : List Value) : Request :=
  { t with header := t.header ++ [⟨canonicalHeaderKey key, vs⟩] }

/-- Embedding of `Request.UserAgent` (src/request.go:336-338). -/
def Request.UserAgent (t : Request) (ua : String) : Request :=
  t.Header "User-Agent" [.str ua]

/-- Embedding of `Request.Authorization` (src/request.go:340-342). -/
def Request.Authorization (t : Request) (a : String) : Request :=
  t.Header "Authorization" [.str a]

/-- Embedding of `Request.User` (src/request.go:344-347). -/
def Request.User (t : Request) (u : Option Userinfo) : Request :=
  { t with user := u }

/-- Embedding of `Request.Body` (src/request.go:349-353). -/
def Request.Body (t : Request) (data : List UInt8) (mime : String) : Request :=
  { t with body := data, bodyMime := mime }

/-- Embedding of `Request.Form` (src/request.go:355-359); the standard
library's `url.Values.Encode` is a collaborator, so the already-encoded
form body is the input. -/
def Request.Form (t : Request) (encoded : List UInt8) : Request :=
  { t with body := encoded, bodyMime := "application/x-www-form-urlencoded; charset=utf-8" }

/-- Embedding of `Request.JSON` (src/request.go:361-365): the outcome of
the `json.Marshal` collaborator is the input.  The Go code discards the
error with `t.body, _ = json.Marshal(v)`, and `json.Marshal` returns nil
bytes on error, so a failed marshal leaves an empty body; the MIME type
is set either way. -/
def Request.JSON (t : Request) (marshalRes : Except String (List UInt8)) : Request :=
  { t with
    body := match marshalRes with
      | .ok bs => bs
      | .error _ => []
    bodyMime := "application/json; charset=utf-8" }

/-- Embedding of `Request.Limit` (src/request.go:367-370). -/
def Request.Limit (t : Request) (l : Nat) : Request :=
  { t with limiter := some l }

/-- The truncation cap `maxErrLen = 1 << 12` (src/request.go:280). -/
def maxErrLen : Nat := 1 <<< 12

/-- UTF-8 bytes of the `...` marker appended on truncation
(src/request.go:481). -/
def ellipsisBytes : List UInt8 := [46, 46, 46]

/-- Body truncation of `processErrorResponse` (src/request.go:479-484):
bodies longer than `maxErrLen` bytes are cut to their first `maxErrLen`
bytes with the ellipsis marker appended; shorter bodies pass through. -/
def truncMsg (buf : List UInt8) : List UInt8 :=
  if maxErrLen < buf.length then buf.take maxErrLen ++ ellipsisBytes else buf

/-- The semantic error kinds wrapped with `%w` by the classifier: the
sentinel errors `os.ErrNotExist`, `os.ErrPermission`,
`os.ErrDeadlineExceeded` and `os.ErrInvalid`, testable by `errors.Is`. -/
inductive ErrKind where
  | notExist
  | permission
  | deadlineExceeded
  | invalid
deriving DecidableEq, Repr

/-- The errors `processErrorResponse` can produce: a body-read failure,
a sentinel-wrapped error carrying the (possibly truncated) body, or a
generic error carrying the verbatim status line and the body. -/
inductive GoErr where
  | readFailed (e : String)
  | wrapped (kind : ErrKind) (msg : List UInt8)
  | generic (status : String) (msg : List UInt8)
deriving DecidableEq, Repr

/-- The diagnostic body text carried by a classified error. -/
def GoErr.msgBytes : GoErr → List UInt8
  | .readFailed _ => []
  | .wrapped _ m => m
  | .generic _ m => m

/-- Embedding of `processErrorResponse` (src/request.go:469-497).  The
body-read collaborator's outcome (`io.ReadAll`) is the input; on success
the body is truncated and the status code switched on: 404, 403, 504 and
502 wrap their sentinel kinds, anything else yields the generic error
with the verbatim status line. -/
def processErrorResponse (statusCode : Nat) (status : String)
    (bodyRead : Except String (List UInt8)) : GoErr :=
  match bodyRead with
  | .error e => .readFailed e
  | .ok buf =>
    let msg := truncMsg buf
    if statusCode = 404 then .wrapped .notExist msg
    else if statusCode = 403 then .wrapped .permission msg
    else if statusCode = 504 then .wrapped .deadlineExceeded msg
    else if statusCode = 502 then .wrapped .invalid msg
    else .generic status msg

/-- Decidable equality of collaborator outcomes. -/
instance {α β : Type} [DecidableEq α] [DecidableEq β] : DecidableEq (Except α β) := fun a b =>
  match a, b with
  | .error x, .error y => decidable_of_iff (x = y) (by simp)
  | .error _, .ok _ => isFalse (by simp)
  | .ok _, .error _ => isFalse (by simp)
  | .ok x, .ok y => decidable_of_iff (x = y) (by simp)

/-- A materialized outbound request (the parts the executor consults). -/
structure HttpRequest where
  method : String
  urlStr : String
deriving DecidableEq, Repr

/-- A transport response: status code, verbatim status line, and the
outcome of reading its body. -/
structure HttpResponse where
  statusCode : Nat
  status : String
  bodyRead : Except String (List UInt8)
deriving DecidableEq, Repr

/-- The context argument handed to the rate limiter's `Wait`: the fresh
`context.Background()` or the caller's attached context. -/
inductive CtxArg where
  | background
  | caller (c : Nat)
deriving DecidableEq, Repr

/-- The error cases of the execution pipeline `Request.do`. -/
inductive DoErr where
  | materialize (e : String)
  | limitWait (e : String)
  | transport (e : String)
  | httpError (e : GoErr)
deriving DecidableEq, Repr

/-- Observable outcome of one execution: the result, which context (if
any) the rate-limiter wait was issued with, and whether the transport
collaborator was invoked. -/
structure DoTrace where
  result : Except DoErr HttpResponse
  limiterWaitCtx : Option CtxArg
  transportInvoked : Bool
deriving DecidableEq, Repr

/-- The dispatch tail of `Request.do` (src/request.go:459-466): run the
transport; a transport error is surfaced unchanged; a status of 400 or
above is classified by `processErrorResponse`; anything else is the
successful response. -/
def dispatch (req : HttpRequest) (transport : HttpRequest → Except String HttpResponse)
    (lw : Option CtxArg) : DoTrace :=
  match transport req with
  | .error e => ⟨.error (.transport e), lw, true⟩
  | .ok res =>
    if 400 ≤ res.statusCode then
      ⟨.error (.httpError (processErrorResponse res.statusCode res.status res.bodyRead)), lw, true⟩
    else ⟨.ok res, lw, true⟩

/-- Embedding of `Request.do` (src/request.go:449-467).  The outcomes of
the collaborators are inputs: `matRes` is the outcome of `t.request()`
(whose URL parsing is the `net/url` collaborator), `waitOutcome` the
outcome of the limiter's `Wait`, `transport` the client's `Do`.  When a
limiter is attached the wait is issued with `context.Background()` —
never with the builder's attached context — and a wait failure aborts
before the transport is invoked. -/
def Request.doCall (t : Request) (matRes : Except String HttpRequest)
    (waitOutcome : Except String Unit)
    (transport : HttpRequest → Except String HttpResponse) : DoTrace :=
  match matRes with
  | .error e => ⟨.error (.materialize e), none, false⟩
  | .ok req =>
    if t.limiter.isSome then
      match waitOutcome with
      | .error e => ⟨.error (.limitWait e), some .background, false⟩
      | .ok _ => dispatch req transport (some .background)
    else dispatch req transport none

/-- The parsed base URL as `Request.request` manipulates it: user-info
slot and parsed query values (scheme, host and path are carried opaquely;
parsing itself is the `net/url` collaborator). -/
structure GoURL where
  scheme : String
  host : String
  path : String
  user : Option Userinfo
  queryVals : Values
deriving DecidableEq, Repr

/-- The URL-rewriting steps of `Request.request` (src/request.go:499-507):
merge the builder's query pairs into the parsed URL's query values with
`injectPairs`, and unconditionally overwrite the user-info slot with the
builder's credentials.  (Re-encoding of the merged query is the `net/url`
collaborator; the merged values are kept directly.) -/
def requestURL (t : Request) (u : GoURL) : GoURL :=
  { u with queryVals := injectPairs u.queryVals t.query, user := t.user }

/-- One configuration call of the builder chain. -/
inductive ConfigOp where
  | client (c : Nat)
  | context (c : Nat)
  | query (key : String) (vs : List Value)
  | header (key : String) (vs : List Value)
  | userAgent (ua : String)
  | authorization (a : String)
  | user (u : Option Userinfo)
  | body (data : List UInt8) (mime : String)
  | form (encoded : List UInt8)
  | json (marshalRes : Except String (List UInt8))
  | limit (l : Nat)
deriving DecidableEq, Repr

/-- Whether a configuration call is the `User` credential setter. -/
def ConfigOp.setsUser : ConfigOp → Bool
  | .user _ => true
  | _ => false

/-- Apply one configuration call to a builder value. -/
def applyOp (t : Request) : ConfigOp → Request
  | .client c => t.Client c
  | .context c => t.Context c
  | .query k vs => t.Query k vs
  | .header k vs => t.Header k vs
  | .userAgent ua => t.UserAgent ua
  | .authorization a => t.Authorization a
  | .user u => t.User u
  | .body d m => t.Body d m
  | .form e => t.Form e
  | .json r => t.JSON r
  | .limit l => t.Limit l

/-- Apply a chain of configuration calls left to right. -/
def applyOps (t : Request) (ops : List ConfigOp) : Request :=
  ops.foldl applyOp t

/-- A Go slice header: backing-array identity, length and capacity.  The
`Request` struct is copied by value when a configuration method runs, but
the copy shares the slice's backing array with the original. -/
structure GoSlice where
  arr : Nat
  len : Nat
  cap : Nat
deriving DecidableEq, Repr

/-- The heap of backing arrays for pair slices, with a fresh-id counter. -/
structure SliceHeap where
  mem : Nat → List Pair
  next : Nat

/-- Placeholder contents of not-yet-written backing-array cells. -/
def emptyPair : Pair := ⟨"", []⟩

/-- The logical contents of a slice: the first `len` cells of its backing
array. -/
def sliceList (h : SliceHeap) (s : GoSlice) : List Pair :=
  (h.mem s.arr).take s.len

/-- Go's `append` on a pair slice: with spare capacity the new element is
written in place into the shared backing array at index `len`; otherwise
a fresh backing array is allocated with doubled capacity (the growth the
Go runtime uses for small slices) and the contents copied. -/
def goAppend (h : SliceHeap) (s : GoSlice) (p : Pair) : SliceHeap × GoSlice :=
  if s.len < s.cap then
    ({ h with mem := fun i => if i = s.arr then (h.mem s.arr).set s.len p else h.mem i },
     { s with len := s.len + 1 })
  else
    let newcap := max (2 * s.cap) (s.len + 1)
    ({ mem := fun i =>
         if i = h.next then
           (h.mem s.arr).take s.len ++ p :: List.replicate (newcap - s.len - 1) emptyPair
         else h.mem i,
       next := h.next + 1 },
     { arr := h.next, len := s.len + 1, cap := newcap })

/-- The query-slice portion of a builder value in the heap-level model.
The other fields of `Request` are plain values or pointers whose
by-value copy is exact, so only the query pair slice — the field `Query`
appends to — is carried. -/
structure RequestQ where
  query : GoSlice
deriving DecidableEq, Repr

/-- Heap-level embedding of `Request.Query` (src/request.go:326-329):
the receiver is copied by value (sharing the slice's backing array) and
the new pair appended with Go `append` semantics. -/
def queryQ (h : SliceHeap) (t : RequestQ) (key : String) (vs : List Value) :
    SliceHeap × RequestQ :=
  let r := goAppend h t.query ⟨key, vs⟩
  (r.1, { query := r.2 })

/-- The empty heap. -/
def hp0 : SliceHeap := ⟨fun _ => [], 0⟩

/-- A fresh builder's nil query slice (length and capacity zero). -/
def rq0 : RequestQ := ⟨⟨0, 0, 0⟩⟩

/-- First configuration call of the leakage scenario: capacity grows 0→1. -/
def step1 : SliceHeap × RequestQ := queryQ hp0 rq0 "a" [.int 1]

/-- Second call: capacity grows 1→2. -/
def step2 : SliceHeap × RequestQ := queryQ step1.1 step1.2 "b" [.int 2]

/-- Third call: capacity grows 2→4, leaving one spare cell. -/
def step3 : SliceHeap × RequestQ := queryQ step2.1 step2.2 "c" [.int 3]

/-- First derivation from the common predecessor `step3.2`: the spare
cell of the shared backing array is written in place. -/
def stepD : SliceHeap × RequestQ := queryQ step3.1 step3.2 "d" [.int 4]

/-- Second derivation from the same predecessor `step3.2`: the same
spare cell is overwritten. -/
def stepE : SliceHeap × RequestQ := queryQ stepD.1 step3.2 "e" [.int 5]

/-- Helper: appending a value under a key with `addVal` extends exactly
that key's value list. -/
theorem getVals_addVal (vals : Values) (k v : String) :
    getVals (addVal vals k v) k = getVals vals k ++ [v] := by
  induction vals with
  | nil => simp [addVal, getVals]
  | cons e rest ih =>
    by_cases h : e.1 = k
    · simp [addVal, getVals, h]
    · simp [addVal, getVals, h, ih]

/-- C2: a query or header pair whose effective string value (after
conversion) is "", "0" or "false" is omitted entirely — it contributes
nothing to the merged values; any other value, including the non-empty
whitespace string, is retained and appended under its key. -/
theorem falsy_values_omitted (vals : Values) (ps₁ ps₂ : List Pair) (p : Pair) :
    (dropped (lastStr p.values) = true →
        injectPairs vals (ps₁ ++ p :: ps₂) = injectPairs vals (ps₁ ++ ps₂))
    ∧ (dropped (lastStr p.values) = false →
        getVals (injectPairs vals [p]) p.key = getVals vals p.key ++ [lastStr p.values])
    ∧ dropped "" = true ∧ dropped "0" = true ∧ dropped "false" = true
    ∧ dropped "  " = false := by
  refine ⟨fun h => ?_, fun h => ?_, by decide, by decide, by decide, by decide⟩
  · simp [injectPairs, List.foldl_append, h]
  · simp [injectPairs, h, getVals_addVal]

/-- C6: within one pair entry only the last candidate value determines
the emitted string — `lastStr` of a list ending in `v` is the conversion
of `v` alone, and `injectPairs` treats a pair with earlier candidates
exactly like the pair holding only the last one (so the omission rule is
applied to the last candidate's conversion alone). -/
theorem last_candidate_wins (vals : Values) (k : String) (vs : List Value) (v : Value) :
    lastStr (vs ++ [v]) = valueStr v
    ∧ injectPairs vals [⟨k, vs ++ [v]⟩] = injectPairs vals [⟨k, [v]⟩] := by
  have hlast : lastStr (vs ++ [v]) = valueStr v := by
    simp [lastStr, List.foldl_append]
  exact ⟨hlast, by simp [injectPairs, lastStr, List.foldl_append]⟩

/-- C7: two `Query` calls with the same key and different non-omitted
values produce a multi-value list under that key holding both effective
values in application order, appended after whatever the key already
held. -/
theorem query_multivalue_order (t : Request) (vals : Values) (k : String)
    (v₁ v₂ : List Value)
    (h₁ : dropped (lastStr v₁) = false) (h₂ : dropped (lastStr v₂) = false)
    (hne : lastStr v₁ ≠ lastStr v₂) :
    getVals (injectPairs vals ((t.Query k v₁).Query k v₂).query) k
      = getVals (injectPairs vals t.query) k ++ [lastStr v₁, lastStr v₂] := by
  have hq : ((t.Query k v₁).Query k v₂).query = t.query ++ [⟨k, v₁⟩, ⟨k, v₂⟩] := by
    simp [Request.Query]
  rw [hq]
  simp [injectPairs, List.foldl_append, h₁, h₂, getVals_addVal]

/-- Witness for C7 at a concrete chain: two `Query` calls on the key
`tag` emit both values in order. -/
theorem query_multivalue_order_witness :
    getVals (injectPairs []
        (((New "GET" "/x").Query "tag" [.str "a"]).Query "tag" [.str "b"]).query) "tag"
      = getVals (injectPairs [] (New "GET" "/x").query) "tag"
          ++ [lastStr [.str "a"], lastStr [.str "b"]] :=
  query_multivalue_order (New "GET" "/x") [] "tag" [.str "a"] [.str "b"]
    (by decide) (by decide) (by decide)

/-- Helper: `stripAfterQ` distributes over an appended prefix free of
question marks. -/
theorem stripAfterQ_append (a b : List Char) (h : '?' ∉ a) :
    stripAfterQ (a ++ b) = a ++ stripAfterQ b := by
  induction a with
  | nil => rfl
  | cons c cs ih =>
    have hc : c ≠ '?' := fun hq => h (hq ▸ List.mem_cons_self c cs)
    have hcs : '?' ∉ cs := fun hm => h (List.mem_cons_of_mem c hm)
    simp [stripAfterQ, hc, ih hcs]

/-- Helper: stripping the query of a URL prefixed with the local
authority strips only inside the original suffix. -/
theorem stripQuery_localhost (u : String) :
    stripQuery ("http://localhost" ++ u) = "http://localhost" ++ stripQuery u := by
  have h1 : ("http://localhost" ++ u).data = "http://localhost".data ++ u.data :=
    String.data_append "http://localhost" u
  have h2 : ('?' ∉ "http://localhost".data) := by decide
  unfold stripQuery
  rw [h1, stripAfterQ_append _ _ h2]
  rfl

/-- C3: a base URL starting with `/` or `:` is prefixed with
`http://localhost` by the constructor, and everything from the first
question mark on is stripped; in particular `/foo?x=1` normalizes to
exactly `http://localhost/foo`. -/
theorem relative_url_normalized (m u : String)
    (h : (hasPfx u "/" || hasPfx u ":") = true) :
    (New m u).url = "http://localhost" ++ stripQuery u
    ∧ (New "GET" "/foo?x=1").url = "http://localhost/foo" := by
  refine ⟨?_, by decide⟩
  show stripQuery (if hasPfx u "/" || hasPfx u ":" then "http://localhost" ++ u else u)
      = "http://localhost" ++ stripQuery u
  rw [if_pos h]
  exact stripQuery_localhost u

/-- Witness for C3 at a concrete relative URL. -/
theorem relative_url_normalized_witness :
    (New "GET" "/api").url = "http://localhost" ++ stripQuery "/api" :=
  (relative_url_normalized "GET" "/api" (by decide)).1

/-- Helper: the diagnostic text carried by every classified error of a
successfully read body is the truncated body. -/
theorem msgBytes_processErrorResponse (code : Nat) (status : String) (buf : List UInt8) :
    (processErrorResponse code status (.ok buf)).msgBytes = truncMsg buf := by
  by_cases h1 : code = 404
  · subst h1; rfl
  by_cases h2 : code = 403
  · subst h2; rfl
  by_cases h3 : code = 504
  · subst h3; rfl
  by_cases h4 : code = 502
  · subst h4; rfl
  simp [processErrorResponse, GoErr.msgBytes, h1, h2, h3, h4]

/-- C4: the classifier maps 404 to the not-found sentinel, 403 to
permission-denied, 504 to deadline-exceeded, 502 to invalid, and every
other status of 400 or above to the generic error carrying the verbatim
status line; every classified error carries the (possibly truncated)
body text. -/
theorem status_code_classification (code : Nat) (status : String) (body : List UInt8)
    (h : 400 ≤ code) :
    (code = 404 → processErrorResponse code status (.ok body)
        = .wrapped .notExist (truncMsg body))
    ∧ (code = 403 → processErrorResponse code status (.ok body)
        = .wrapped .permission (truncMsg body))
    ∧ (code = 504 → processErrorResponse code status (.ok body)
        = .wrapped .deadlineExceeded (truncMsg body))
    ∧ (code = 502 → processErrorResponse code status (.ok body)
        = .wrapped .invalid (truncMsg body))
    ∧ (code ≠ 404 → code ≠ 403 → code ≠ 504 → code ≠ 502 →
        processErrorResponse code status (.ok body) = .generic status (truncMsg body))
    ∧ (processErrorResponse code status (.ok body)).msgBytes = truncMsg body := by
  refine ⟨fun hc => ?_, fun hc => ?_, fun hc => ?_, fun hc => ?_,
    fun h1 h2 h3 h4 => ?_, msgBytes_processErrorResponse code status body⟩
  · subst hc; rfl
  · subst hc; rfl
  · subst hc; rfl
  · subst hc; rfl
  · simp [processErrorResponse, h1, h2, h3, h4]

/-- Witness for C4 at status 404 with a small body. -/
theorem status_code_classification_witness :
    processErrorResponse 404 "404 Not Found" (.ok [109, 105])
      = .wrapped .notExist (truncMsg [109, 105]) :=
  (status_code_classification 404 "404 Not Found" [109, 105] (by decide)).1 rfl

/-- C5: an error body longer than 4096 bytes yields a diagnostic text of
exactly its first 4096 bytes followed by the ellipsis marker; a body of
at most 4096 bytes passes through whole, with no marker. -/
theorem error_body_truncated (code : Nat) (status : String) (buf : List UInt8) :
    maxErrLen = 4096
    ∧ (4096 < buf.length →
        (processErrorResponse code status (.ok buf)).msgBytes
          = buf.take 4096 ++ ellipsisBytes)
    ∧ (buf.length ≤ 4096 →
        (processErrorResponse code status (.ok buf)).msgBytes = buf) := by
  have hm : maxErrLen = 4096 := by decide
  refine ⟨hm, fun h => ?_, fun h => ?_⟩
  · rw [msgBytes_processErrorResponse]
    simp [truncMsg, hm, h]
  · rw [msgBytes_processErrorResponse]
    simp [truncMsg, hm, Nat.not_lt.mpr h]

/-- Witness for C5 at a 4097-byte body: the diagnostic is the first 4096
bytes plus the marker. -/
theorem error_body_truncated_witness :
    (processErrorResponse 500 "500 Internal Server Error"
        (.ok (List.replicate 4097 65))).msgBytes
      = (List.replicate 4097 65).take 4096 ++ ellipsisBytes :=
  (error_body_truncated 500 "500 Internal Server Error" (List.replicate 4097 65)).2.1
    (by rw [List.length_replicate]; decide)

/-- Helper: the dispatch tail never touches the recorded limiter-wait
context and always invokes the transport. -/
theorem dispatch_trace (req : HttpRequest)
    (transport : HttpRequest → Except String HttpResponse) (lw : Option CtxArg) :
    (dispatch req transport lw).limiterWaitCtx = lw
    ∧ (dispatch req transport lw).transportInvoked = true := by
  unfold dispatch
  cases htr : transport req with
  | error e => exact ⟨rfl, rfl⟩
  | ok res =>
    by_cases h : 400 ≤ res.statusCode
    · simp [h]
    · simp [h]

/-- C8: with a rate limiter attached, the wait is always issued with the
fresh background context — never the builder's attached context — and a
wait failure is returned as the error with the transport collaborator
never invoked. -/
theorem limiter_wait_uses_background (t : Request) (req : HttpRequest)
    (waitOutcome : Except String Unit)
    (transport : HttpRequest → Except String HttpResponse)
    (hl : t.limiter.isSome = true) :
    (t.doCall (.ok req) waitOutcome transport).limiterWaitCtx = some .background
    ∧ (∀ e, waitOutcome = .error e →
        t.doCall (.ok req) waitOutcome transport
          = ⟨.error (.limitWait e), some .background, false⟩) := by
  simp only [Request.doCall, hl, if_true]
  cases waitOutcome with
  | error e =>
    refine ⟨rfl, fun e' he => ?_⟩
    injection he with he'
    subst he'
    rfl
  | ok _ =>
    refine ⟨(dispatch_trace req transport (some .background)).1, fun e' he => ?_⟩
    simp at he

/-- Witness for C8: a concrete limiter-equipped builder whose wait fails
aborts with the wait error, transport never invoked, wait context the
background context. -/
theorem limiter_wait_uses_background_witness :
    ((New "GET" "/x").Limit 1).doCall (.ok ⟨"GET", "http://localhost/x"⟩)
        (.error "rate: Wait exceeds limiter burst")
        (fun _ => .ok ⟨200, "200 OK", .ok []⟩)
      = ⟨.error (.limitWait "rate: Wait exceeds limiter burst"), some .background, false⟩ :=
  (limiter_wait_uses_background ((New "GET" "/x").Limit 1) ⟨"GET", "http://localhost/x"⟩
      (.error "rate: Wait exceeds limiter burst") (fun _ => .ok ⟨200, "200 OK", .ok []⟩)
      (by decide)).2 "rate: Wait exceeds limiter burst" rfl

/-- Helper: a configuration call other than the credential setter leaves
the builder's user field unchanged. -/
theorem applyOp_user (t : Request) (op : ConfigOp) (h : op.setsUser = false) :
    (applyOp t op).user = t.user := by
  cases op <;> simp_all [applyOp, ConfigOp.setsUser, Request.Client, Request.Context,
    Request.Query, Request.Header, Request.UserAgent, Request.Authorization,
    Request.User, Request.Body, Request.Form, Request.JSON, Request.Limit]

/-- Helper: a chain without the credential setter keeps the user field
empty. -/
theorem applyOps_user_none (ops : List ConfigOp) (t : Request) (ht : t.user = none)
    (h : ∀ op ∈ ops, op.setsUser = false) :
    (applyOps t ops).user = none := by
  induction ops generalizing t with
  | nil => simpa [applyOps] using ht
  | cons op rest ih =>
    have h1 : op.setsUser = false := h op (List.mem_cons_self op rest)
    have h2 : (applyOp t op).user = none := (applyOp_user t op h1).trans ht
    simp only [applyOps, List.foldl_cons]
    exact ih (applyOp t op) h2 (fun o ho => h o (List.mem_cons_of_mem op ho))

/-- C9: when `User` is never called, materialization unconditionally
overwrites the parsed URL's user-info slot with the builder's empty
credentials, so credentials embedded in the base URL are erased from the
outgoing request. -/
theorem embedded_credentials_erased (m u : String) (ops : List ConfigOp) (base : GoURL)
    (h : ∀ op ∈ ops, op.setsUser = false) :
    (requestURL (applyOps (New m u) ops) base).user = none := by
  have hu : (applyOps (New m u) ops).user = none :=
    applyOps_user_none ops (New m u) rfl h
  simp [requestURL, hu]

/-- Witness for C9: a base URL parsed with embedded `alice:pw`
credentials loses them under a `User`-free chain. -/
theorem embedded_credentials_erased_witness :
    (requestURL (applyOps (New "GET" "http://alice:pw@example.com/p")
          [.query "k" [.str "v"], .authorization "Bearer tok"])
        ⟨"http", "example.com", "/p", some ⟨"alice", "pw"⟩, []⟩).user = none :=
  embedded_credentials_erased "GET" "http://alice:pw@example.com/p"
    [.query "k" [.str "v"], .authorization "Bearer tok"]
    ⟨"http", "example.com", "/p", some ⟨"alice", "pw"⟩, []⟩ (by decide)

/-- C10: a failed JSON marshal is silently discarded — the body becomes
empty, the JSON MIME type is still set, and the resulting builder is
indistinguishable from one whose marshal succeeded with empty output, so
no error can surface at configuration or execution time. -/
theorem json_marshal_error_silent (t : Request) (e : String) :
    (t.JSON (.error e)).body = []
    ∧ (t.JSON (.error e)).bodyMime = "application/json; charset=utf-8"
    ∧ t.JSON (.error e) = t.JSON (.ok []) :=
  ⟨rfl, rfl, rfl⟩

/-- C1 (failing part, evaluated at the failing input): after three
`Query` calls the query slice has length 3 and capacity 4; deriving two
builders from that same predecessor writes both new pairs into the same
shared backing-array cell, so the first derived value ends up holding the
second call's pair — shared-mutation leakage between derived values —
while the predecessor itself still reads back unchanged. -/
theorem query_branch_shared_backing :
    sliceList stepE.1 step3.2.query
      = [⟨"a", [.int 1]⟩, ⟨"b", [.int 2]⟩, ⟨"c", [.int 3]⟩]
    ∧ sliceList stepE.1 stepD.2.query
      = [⟨"a", [.int 1]⟩, ⟨"b", [.int 2]⟩, ⟨"c", [.int 3]⟩, ⟨"e", [.int 5]⟩]
    ∧ sliceList stepE.1 stepD.2.query
      ≠ sliceList step3.1 step3.2.query ++ [⟨"d", [.int 4]⟩] :=
  ⟨by decide, by decide, by decide⟩

end Fetch


